import Mathlib

/-!
Shallow embedding of the write-side core of the product-catalog service:
the Money and Discount value objects, the Product aggregate with its
ChangeTracker and domain events, the repository's update-mutation builder,
and the discount-reconstruction fragment of the apply/remove-discount
orchestrators.  Instants (Go `time.Time`) are modelled as integers
(nanoseconds); Go `big.Rat` is modelled as `ℚ`; Go strings as `String`;
fallible constructors return `Except`/`Option`; methods that mutate their
receiver and return an `error` are modelled as functions returning the
post-call state paired with an optional error.
-/

/-- Domain error values (domain_errors.go). -/
inductive DomainErr
  | productNotFound
  | productNotActive
  | productAlreadyActive
  | productAlreadyInactive
  | productArchived
  | cannotArchiveActiveProduct
  | invalidDiscountPercentage
  | invalidDiscountPeriod
  | discountNotValid
  | discountAlreadyExists
  | negativePrice
  | zeroPrice
  | emptyProductName
  | emptyProductCategory
  | productNameTooLong
  | productDescriptionTooLong
  | productCategoryTooLong
deriving DecidableEq, Repr

/-- Product lifecycle status (product.go).  In Go this is a string type with
four declared constants; only those four values occur in the domain. -/
inductive ProductStatus
  | draft
  | active
  | inactive
  | archived
deriving DecidableEq, Repr

/-- The string value of a status constant (used for the `status` column). -/
def statusString : ProductStatus → String
  | ProductStatus.draft => "draft"
  | ProductStatus.active => "active"
  | ProductStatus.inactive => "inactive"
  | ProductStatus.archived => "archived"

/-- Money wraps a `big.Rat`; modelled directly as `ℚ` (always kept in lowest
terms with positive denominator, exactly like `big.Rat`). -/
abbrev Money := ℚ

/-- NewMoney (money.go): builds `numerator/denominator`; panics on a zero
denominator (modelled as `none`). -/
def NewMoney (numerator denominator : Int) : Option Money :=
  if denominator = 0 then none
  else some ((numerator : ℚ) / (denominator : ℚ))

/-- Go `big.Int.Int64()`: the int64 value of an integer, wrapping to the
two's-complement 64-bit range outside [-2^63, 2^63) (low 64 bits of the
magnitude with the sign applied, then reduced mod 2^64). -/
def int64wrap (x : Int) : Int := (x + 2 ^ 63) % 2 ^ 64 - 2 ^ 63

/-- Money.Numerator (money.go): `m.amount.Num().Int64()` — the reduced
numerator passed through the int64 conversion, which wraps outside the
int64 range. -/
def Money.Numerator (m : Money) : Int := int64wrap m.num

/-- Money.Denominator (money.go): `m.amount.Denom().Int64()` — the reduced
denominator passed through the int64 conversion, which wraps outside the
int64 range. -/
def Money.Denominator (m : Money) : Int := int64wrap (m.den : Int)

/-- The int64 conversion is the identity on the int64 range. -/
lemma int64wrap_eq_self (x : Int) (h1 : -(2 ^ 63) ≤ x) (h2 : x < 2 ^ 63) :
    int64wrap x = x := by
  unfold int64wrap
  have h0 : 0 ≤ x + 2 ^ 63 := by linarith
  have hsplit : (2 : Int) ^ 64 = 2 ^ 63 + 2 ^ 63 := by norm_num
  have hlt : x + 2 ^ 63 < 2 ^ 64 := by
    rw [hsplit]
    linarith
  rw [Int.emod_eq_of_lt h0 hlt]
  ring

/-- Go `time.Time.Before` on instants modelled as integers. -/
def timeBefore (a b : Int) : Bool := decide (a < b)

/-- Whitespace test matching `unicode.IsSpace` on the ASCII range. -/
def isSpaceChar (c : Char) : Bool :=
  c = (' ') || c = ('\t') || c = ('\n') || c = ('\r')

/-- Go `strings.TrimSpace`, modelled on the ASCII range. -/
def trimSpace (s : String) : String :=
  String.mk (((s.data.dropWhile isSpaceChar).reverse.dropWhile isSpaceChar).reverse)

/-- Decimal digit string of a natural number. -/
def natDigits (n : Nat) : String := String.mk (Nat.toDigits 10 n)

/-- Left-pad a string with zeros to the requested length. -/
def padZeros (s : String) (n : Nat) : String :=
  if n ≤ s.length then s
  else String.mk (List.replicate (n - s.length) ('0')) ++ s

/-- Decimal rendering of a non-negative rational with `prec` fractional
digits, rounding the last digit half away from zero. -/
def ratFloatStringNonneg (q : ℚ) (prec : Nat) : String :=
  let scaled : ℚ := q * ((10 : ℚ) ^ prec)
  let i : Int := ⌊scaled⌋
  let n : Int := if (1 : ℚ) ≤ 2 * (scaled - (i : ℚ)) then i + 1 else i
  let ip : Nat := (n / ((10 : Int) ^ prec)).toNat
  let fp : Nat := (n % ((10 : Int) ^ prec)).toNat
  if prec = 0 then natDigits ip
  else natDigits ip ++ (".") ++ padZeros (natDigits fp) prec

/-- `big.Rat.FloatString(prec)`: decimal rendering with `prec` fractional
digits, rounding the last digit half away from zero. -/
def ratFloatString (q : ℚ) (prec : Nat) : String :=
  if q < 0 then ("-") ++ ratFloatStringNonneg (-q) prec
  else ratFloatStringNonneg q prec

/-- Discount value object (discount.go): a percentage stored as an exact
rational on the 0–1 scale plus a validity window. -/
structure Discount where
  percentage : ℚ
  startDate : Int
  endDate : Int
deriving DecidableEq, Repr

/-- NewDiscount (discount.go): takes a percentage on the 0–100 scale and
stores `big.NewRat(int64(percentage*100), 10000)`.  The Go parameter is a
`float64`; it is modelled as an exact rational, and the `int64(⋅)` conversion
(truncation toward zero, here of a non-negative value) as the floor.  This is
exact whenever the real product `percentage*100` is representable as a
`float64`, which holds for every input used in the theorems below. -/
def NewDiscount (percentage : ℚ) (startDate endDate : Int) : Except DomainErr Discount :=
  if percentage < 0 ∨ 100 < percentage then Except.error DomainErr.invalidDiscountPercentage
  else if timeBefore endDate startDate then Except.error DomainErr.invalidDiscountPeriod
  else if startDate = endDate then Except.error DomainErr.invalidDiscountPeriod
  else Except.ok { percentage := ((⌊percentage * 100⌋ : Int) : ℚ) / 10000,
                   startDate := startDate, endDate := endDate }

/-- NewDiscountFromRat (discount.go): takes the percentage already on the 0–1
scale; validates `percentage*100` (converted to `float64` in Go, modelled as
the exact rational) against [0,100]. -/
def NewDiscountFromRat (percentageRat : ℚ) (startDate endDate : Int) : Except DomainErr Discount :=
  if 100 * percentageRat < 0 ∨ 100 < 100 * percentageRat then
    Except.error DomainErr.invalidDiscountPercentage
  else if timeBefore endDate startDate then Except.error DomainErr.invalidDiscountPeriod
  else if startDate = endDate then Except.error DomainErr.invalidDiscountPeriod
  else Except.ok { percentage := percentageRat, startDate := startDate, endDate := endDate }

/-- IsValidAt (discount.go): `!now.Before(startDate) && now.Before(endDate)`. -/
def Discount.IsValidAt (d : Discount) (now : Int) : Bool :=
  !(timeBefore now d.startDate) && timeBefore now d.endDate

/-- Percentage (discount.go): the percentage on the 0–100 scale (a `float64`
in Go, modelled exactly). -/
def Discount.Percentage (d : Discount) : ℚ := d.percentage * 100

/-- PercentageRat (discount.go): the percentage on the 0–1 scale. -/
def Discount.PercentageRat (d : Discount) : ℚ := d.percentage

/-- CalculateDiscountAmount (discount.go): `price × percentage`. -/
def Discount.CalculateDiscountAmount (d : Discount) (price : Money) : Money :=
  price * d.percentage

/-- ApplyTo (discount.go): `price − CalculateDiscountAmount(price)`. -/
def Discount.ApplyTo (d : Discount) (price : Money) : Money :=
  price - d.CalculateDiscountAmount price

/-- Field constants for change tracking (product.go). -/
def FieldName : String := "name"

/-- Field constant for the description field. -/
def FieldDescription : String := "description"

/-- Field constant for the category field. -/
def FieldCategory : String := "category"

/-- Field constant for the base-price field. -/
def FieldBasePrice : String := "base_price"

/-- Field constant for the discount field. -/
def FieldDiscount : String := "discount"

/-- Field constant for the status field. -/
def FieldStatus : String := "status"

/-- Field constant for the archival-timestamp field. -/
def FieldArchivedAt : String := "archived_at"

/-- ChangeTracker (change_tracker.go): a dirty-field set (a `map[string]bool`
in Go, modelled as a duplicate-free list). -/
structure ChangeTracker where
  dirtyFields : List String
deriving DecidableEq, Repr

/-- NewChangeTracker: empty dirty set. -/
def NewChangeTracker : ChangeTracker := ⟨[]⟩

/-- MarkDirty: idempotent insert (set semantics of the Go map). -/
def ChangeTracker.MarkDirty (ct : ChangeTracker) (field : String) : ChangeTracker :=
  if field ∈ ct.dirtyFields then ct else ⟨ct.dirtyFields ++ [field]⟩

/-- Dirty: membership test. -/
def ChangeTracker.Dirty (ct : ChangeTracker) (field : String) : Bool :=
  decide (field ∈ ct.dirtyFields)

/-- HasChanges: non-empty test. -/
def ChangeTracker.HasChanges (ct : ChangeTracker) : Bool :=
  decide (ct.dirtyFields ≠ [])

/-- Domain events (domain_events.go), as a closed variant type.  The
`ProductUpdatedEvent.Changes` map is modelled as an association list. -/
inductive DomainEvent
  | productCreated (productID name category : String) (basePrice : Money) (createdAt : Int)
  | productUpdated (productID : String) (updatedAt : Int) (changes : List (String × String))
  | productActivated (productID : String) (activatedAt : Int)
  | productDeactivated (productID : String) (deactivatedAt : Int)
  | productArchivedEvt (productID : String) (archivedAt : Int)
  | discountApplied (productID : String) (discountPercent : ℚ)
      (discountStartDate discountEndDate : Int) (appliedAt : Int)
  | discountRemoved (productID : String) (removedAt : Int)
  | priceChanged (productID : String) (oldPrice newPrice : Money) (changedAt : Int)
deriving DecidableEq, Repr

/-- Product aggregate root (product.go). -/
structure Product where
  id : String
  name : String
  description : String
  category : String
  basePrice : Money
  discount : Option Discount
  status : ProductStatus
  createdAt : Int
  updatedAt : Int
  archivedAt : Option Int
  changes : ChangeTracker
  events : List DomainEvent
deriving DecidableEq, Repr

/-- validateProductName (product.go). -/
def validateProductName (name : String) : Option DomainErr :=
  let trimmed := trimSpace name
  if trimmed = "" then some DomainErr.emptyProductName
  else if 255 < trimmed.length then some DomainErr.productNameTooLong
  else none

/-- validateProductCategory (product.go). -/
def validateProductCategory (category : String) : Option DomainErr :=
  let trimmed := trimSpace category
  if trimmed = "" then some DomainErr.emptyProductCategory
  else if 100 < trimmed.length then some DomainErr.productCategoryTooLong
  else none

/-- validatePrice (product.go): a nil price is rejected as zero. -/
def validatePrice : Option Money → Option DomainErr
  | none => some DomainErr.zeroPrice
  | some price =>
    if price < 0 then some DomainErr.negativePrice
    else if price = 0 then some DomainErr.zeroPrice
    else none

/-- NewProduct (product.go): validates, starts in draft, emits a creation
event. -/
def NewProduct (id name description category : String) (basePrice : Option Money)
    (now : Int) : Except DomainErr Product :=
  match validateProductName name with
  | some e => Except.error e
  | none =>
  match validateProductCategory category with
  | some e => Except.error e
  | none =>
  match validatePrice basePrice with
  | some e => Except.error e
  | none =>
  match basePrice with
  | none => Except.error DomainErr.zeroPrice
  | some bp =>
    Except.ok
      { id := id, name := trimSpace name, description := trimSpace description,
        category := trimSpace category, basePrice := bp, discount := none,
        status := ProductStatus.draft, createdAt := now, updatedAt := now,
        archivedAt := none, changes := NewChangeTracker,
        events := [DomainEvent.productCreated id (trimSpace name) (trimSpace category) bp now] }

/-- ReconstructProduct (product.go): rebuilds persisted state, clean tracker,
no events. -/
def ReconstructProduct (id name description category : String) (basePrice : Money)
    (discount : Option Discount) (status : ProductStatus)
    (createdAt updatedAt : Int) (archivedAt : Option Int) : Product :=
  { id := id, name := name, description := description, category := category,
    basePrice := basePrice, discount := discount, status := status,
    createdAt := createdAt, updatedAt := updatedAt, archivedAt := archivedAt,
    changes := NewChangeTracker, events := [] }

/-- UpdateDetails (product.go).  Mirrors the Go control flow exactly: the
archived check and the name validation precede any mutation, but the category
validation runs after the name and description fields have already been
applied, so a category error can leave those fields (and their dirty marks)
modified on the returned receiver. -/
def Product.UpdateDetails (p0 : Product) (name description category : String)
    (now : Int) : Product × Option DomainErr :=
  if p0.status = ProductStatus.archived then (p0, some DomainErr.productArchived)
  else if name ≠ "" ∧ (validateProductName name).isSome then (p0, validateProductName name)
  else
    let p1 := if name ≠ "" ∧ trimSpace name ≠ p0.name then
        { p0 with name := trimSpace name, changes := p0.changes.MarkDirty FieldName }
      else p0
    let ch1 : List (String × String) :=
      if name ≠ "" ∧ trimSpace name ≠ p0.name then [(FieldName, trimSpace name)] else []
    let p2 := if description ≠ "" ∧ trimSpace description ≠ p1.description then
        { p1 with
          description := trimSpace description,
          changes := p1.changes.MarkDirty FieldDescription }
      else p1
    let ch2 := if description ≠ "" ∧ trimSpace description ≠ p1.description then
        ch1 ++ [(FieldDescription, trimSpace description)]
      else ch1
    if category ≠ "" ∧ (validateProductCategory category).isSome then
      (p2, validateProductCategory category)
    else
      let p3 := if category ≠ "" ∧ trimSpace category ≠ p2.category then
          { p2 with
            category := trimSpace category,
            changes := p2.changes.MarkDirty FieldCategory }
        else p2
      let ch3 := if category ≠ "" ∧ trimSpace category ≠ p2.category then
          ch2 ++ [(FieldCategory, trimSpace category)]
        else ch2
      if ch3 = [] then (p3, none)
      else ({ p3 with
              updatedAt := now,
              events := p3.events ++ [DomainEvent.productUpdated p3.id now ch3] }, none)

/-- UpdatePrice (product.go). -/
def Product.UpdatePrice (p : Product) (newPrice : Option Money) (now : Int) :
    Product × Option DomainErr :=
  if p.status = ProductStatus.archived then (p, some DomainErr.productArchived)
  else match validatePrice newPrice with
  | some e => (p, some e)
  | none =>
    match newPrice with
    | none => (p, some DomainErr.zeroPrice)
    | some np =>
      if np ≠ p.basePrice then
        ({ p with
            basePrice := np,
            changes := p.changes.MarkDirty FieldBasePrice,
            updatedAt := now,
            events := p.events ++ [DomainEvent.priceChanged p.id p.basePrice np now] }, none)
      else (p, none)

/-- Activate (product.go). -/
def Product.Activate (p : Product) (now : Int) : Product × Option DomainErr :=
  if p.status = ProductStatus.archived then (p, some DomainErr.productArchived)
  else if p.status = ProductStatus.active then (p, some DomainErr.productAlreadyActive)
  else
    ({ p with
        status := ProductStatus.active,
        changes := p.changes.MarkDirty FieldStatus,
        updatedAt := now,
        events := p.events ++ [DomainEvent.productActivated p.id now] }, none)

/-- Deactivate (product.go). -/
def Product.Deactivate (p : Product) (now : Int) : Product × Option DomainErr :=
  if p.status = ProductStatus.archived then (p, some DomainErr.productArchived)
  else if p.status = ProductStatus.inactive then (p, some DomainErr.productAlreadyInactive)
  else
    ({ p with
        status := ProductStatus.inactive,
        changes := p.changes.MarkDirty FieldStatus,
        updatedAt := now,
        events := p.events ++ [DomainEvent.productDeactivated p.id now] }, none)

/-- Archive (product.go). -/
def Product.Archive (p : Product) (now : Int) : Product × Option DomainErr :=
  if p.status = ProductStatus.active then (p, some DomainErr.cannotArchiveActiveProduct)
  else if p.status = ProductStatus.archived then (p, some DomainErr.productArchived)
  else
    ({ p with
        status := ProductStatus.archived,
        archivedAt := some now,
        changes := (p.changes.MarkDirty FieldStatus).MarkDirty FieldArchivedAt,
        updatedAt := now,
        events := p.events ++ [DomainEvent.productArchivedEvt p.id now] }, none)

/-- ApplyDiscount (product.go). -/
def Product.ApplyDiscount (p : Product) (discount : Discount) (now : Int) :
    Product × Option DomainErr :=
  if p.status ≠ ProductStatus.active then (p, some DomainErr.productNotActive)
  else if !(discount.IsValidAt now) then (p, some DomainErr.discountNotValid)
  else if p.discount.isSome then (p, some DomainErr.discountAlreadyExists)
  else
    ({ p with
        discount := some discount,
        changes := p.changes.MarkDirty FieldDiscount,
        updatedAt := now,
        events := p.events ++ [DomainEvent.discountApplied p.id discount.Percentage
          discount.startDate discount.endDate now] }, none)

/-- RemoveDiscount (product.go): the archived check precedes the
missing-discount no-op. -/
def Product.RemoveDiscount (p : Product) (now : Int) : Product × Option DomainErr :=
  if p.status = ProductStatus.archived then (p, some DomainErr.productArchived)
  else match p.discount with
  | none => (p, none)
  | some _ =>
    ({ p with
        discount := none,
        changes := p.changes.MarkDirty FieldDiscount,
        updatedAt := now,
        events := p.events ++ [DomainEvent.discountRemoved p.id now] }, none)

/-- CalculateEffectivePrice (product.go). -/
def Product.CalculateEffectivePrice (p : Product) (now : Int) : Money :=
  match p.discount with
  | some d => if d.IsValidAt now then d.ApplyTo p.basePrice else p.basePrice
  | none => p.basePrice

/-- Column constants of the products table (m_product fields). -/
def ColProductID : String := "product_id"

/-- Column constant for the name column. -/
def ColName : String := "name"

/-- Column constant for the description column. -/
def ColDescription : String := "description"

/-- Column constant for the category column. -/
def ColCategory : String := "category"

/-- Column constant for the base-price numerator column. -/
def ColBasePriceNumerator : String := "base_price_numerator"

/-- Column constant for the base-price denominator column. -/
def ColBasePriceDenominator : String := "base_price_denominator"

/-- Column constant for the discount-percent column. -/
def ColDiscountPercent : String := "discount_percent"

/-- Column constant for the discount-start column. -/
def ColDiscountStartDate : String := "discount_start_date"

/-- Column constant for the discount-end column. -/
def ColDiscountEndDate : String := "discount_end_date"

/-- Column constant for the status column. -/
def ColStatus : String := "status"

/-- Column constant for the created-at column. -/
def ColCreatedAt : String := "created_at"

/-- Column constant for the updated-at column. -/
def ColUpdatedAt : String := "updated_at"

/-- Column constant for the archived-at column. -/
def ColArchivedAt : String := "archived_at"

/-- A value written to a column of the products table. -/
inductive ColValue
  | null
  | str (s : String)
  | int (n : Int)
  | time (t : Int)
deriving DecidableEq, Repr

/-- The input of `m_product.UpdateMutation`: the primary-key value plus the
column/value update map (an association list standing for the Go map; the
mutation is then assembled with the key column first). -/
structure SpannerUpdate where
  productID : String
  updates : List (String × ColValue)
deriving DecidableEq, Repr

/-- The update-map entries contributed by the dirty fields of a product
(the body of ProductRepo.UpdateMut before the updated-at stamp). -/
def dirtyUpdates (p : Product) : List (String × ColValue) :=
  (if p.changes.Dirty FieldName then [(ColName, ColValue.str p.name)] else []) ++
  (if p.changes.Dirty FieldDescription then
      [(ColDescription, if p.description = "" then ColValue.null
                        else ColValue.str p.description)]
    else []) ++
  (if p.changes.Dirty FieldCategory then [(ColCategory, ColValue.str p.category)] else []) ++
  (if p.changes.Dirty FieldBasePrice then
      [(ColBasePriceNumerator, ColValue.int p.basePrice.Numerator),
       (ColBasePriceDenominator, ColValue.int p.basePrice.Denominator)]
    else []) ++
  (if p.changes.Dirty FieldDiscount then
      match p.discount with
      | some d =>
        [(ColDiscountPercent, ColValue.str (ratFloatString d.PercentageRat 10)),
         (ColDiscountStartDate, ColValue.time d.startDate),
         (ColDiscountEndDate, ColValue.time d.endDate)]
      | none =>
        [(ColDiscountPercent, ColValue.null),
         (ColDiscountStartDate, ColValue.null),
         (ColDiscountEndDate, ColValue.null)]
    else []) ++
  (if p.changes.Dirty FieldStatus then [(ColStatus, ColValue.str (statusString p.status))] else []) ++
  (if p.changes.Dirty FieldArchivedAt then
      [(ColArchivedAt, match p.archivedAt with
                       | some t => ColValue.time t
                       | none => ColValue.null)]
    else [])

/-- ProductRepo.UpdateMut (product_repo.go): nil when nothing is dirty or the
update map stays empty; otherwise the dirty-field updates plus the updated-at
stamp, keyed by the product id. -/
def ProductRepo.UpdateMut (p : Product) : Option SpannerUpdate :=
  if ¬ (p.changes.HasChanges = true) then none
  else
    let updates := dirtyUpdates p
    if updates = [] then none
    else some { productID := p.id, updates := updates ++ [(ColUpdatedAt, ColValue.time p.updatedAt)] }

/-- The fraction handed to `NewDiscountFromRat` when the apply/remove-discount
orchestrators reconstruct a persisted discount whose stored percentage string
parsed to `q`: a stored value above 1 is treated as a percent scale. -/
def reconstructDiscountFraction (q : ℚ) : ℚ :=
  if (1 : ℚ) < q then q / 100 else q

/-- The discount-reconstruction fragment of the apply-discount and
remove-discount interactors (interactor.go): rescale, then rebuild through
NewDiscountFromRat. -/
def reconstructExistingDiscount (q : ℚ) (startDate endDate : Int) : Except DomainErr Discount :=
  NewDiscountFromRat (reconstructDiscountFraction q) startDate endDate

/-- One business-method call on the aggregate, relating the state before to
the receiver's state after the call (whether or not the call reported an
error). -/
inductive BizStep : Product → Product → Prop
  | updateDetails (p : Product) (name description category : String) (now : Int) :
      BizStep p (p.UpdateDetails name description category now).1
  | updatePrice (p : Product) (newPrice : Option Money) (now : Int) :
      BizStep p (p.UpdatePrice newPrice now).1
  | activate (p : Product) (now : Int) : BizStep p (p.Activate now).1
  | deactivate (p : Product) (now : Int) : BizStep p (p.Deactivate now).1
  | archive (p : Product) (now : Int) : BizStep p (p.Archive now).1
  | applyDiscount (p : Product) (d : Discount) (now : Int) :
      BizStep p (p.ApplyDiscount d now).1
  | removeDiscount (p : Product) (now : Int) : BizStep p (p.RemoveDiscount now).1

/-- The status transitions listed by the specification's state diagram:
draft→active, active→inactive, inactive→active, draft→archived,
inactive→archived. -/
def specTransitions : List (ProductStatus × ProductStatus) :=
  [(ProductStatus.draft, ProductStatus.active),
   (ProductStatus.active, ProductStatus.inactive),
   (ProductStatus.inactive, ProductStatus.active),
   (ProductStatus.draft, ProductStatus.archived),
   (ProductStatus.inactive, ProductStatus.archived)]

/-- The status transitions the code actually performs: the specification's
list plus draft→inactive (Deactivate accepts a draft product). -/
def codeTransitions : List (ProductStatus × ProductStatus) :=
  specTransitions ++ [(ProductStatus.draft, ProductStatus.inactive)]

/-- The invariant relating the archival timestamp to the archived status. -/
def ArchInv (p : Product) : Prop :=
  p.archivedAt.isSome = true ↔ p.status = ProductStatus.archived

/-- A draft product as persisted state (no discount, clean tracker). -/
def sampleDraft : Product :=
  ReconstructProduct ("p-1") ("A") ("") ("cat") ((10 : ℚ)) none ProductStatus.draft 0 0 none

/-- An archived product as persisted state (no discount, archival stamp set). -/
def sampleArchived : Product :=
  ReconstructProduct ("p-2") ("A") ("") ("cat") ((10 : ℚ)) none ProductStatus.archived 0 0 (some 3)

/-- A concrete 20% discount valid on [0, 7200000000000). -/
def sampleDiscount : Discount := ⟨(1 : ℚ)/5, 0, 7200000000000⟩

/-- A 101-character category, one character over the validation bound. -/
def longCategory : String := String.mk (List.replicate 101 ('x'))

/-- Dirty is the membership test in the tracked set. -/
lemma dirty_iff (ct : ChangeTracker) (f : String) :
    ct.Dirty f = true ↔ f ∈ ct.dirtyFields := by
  simp [ChangeTracker.Dirty]

/-- C3: `IsValidAt` is the half-open interval test `startDate ≤ t < endDate`;
in particular a discount with start `T = 0` and end `T+2h` (in nanoseconds) is
valid at `T` and `T+1h59m` and invalid at `T−1s` and `T+2h`. -/
theorem C3_isValidAt_half_open :
    (∀ (d : Discount) (t : Int), d.IsValidAt t = true ↔ (d.startDate ≤ t ∧ t < d.endDate)) ∧
    (∃ d, NewDiscountFromRat ((1 : ℚ)/5) 0 7200000000000 = Except.ok d ∧
      d.IsValidAt 0 = true ∧ d.IsValidAt 7140000000000 = true ∧
      d.IsValidAt (-1000000000) = false ∧ d.IsValidAt 7200000000000 = false) := by
  constructor
  · intro d t
    simp [Discount.IsValidAt, timeBefore, not_lt, and_comm]
  · refine ⟨⟨(1 : ℚ)/5, 0, 7200000000000⟩, ?_, by decide, by decide, by decide, by decide⟩
    simp only [NewDiscountFromRat, timeBefore]
    norm_num

/-- C9 counterexample: the accessors go through the int64 conversion, which
wraps at reachable constructor inputs: NewMoney(-2^63, -1) holds the value
2^63/1 but Numerator() wraps to -2^63, so the exposed pair does not equal
n/d as a rational; and NewMoney(1, -2^63) holds -1/2^63 but Denominator()
wraps to -2^63, which is not positive. -/
theorem C9_counterexample :
    (∃ m : Money, NewMoney (-(2 ^ 63)) (-1) = some m ∧
      m.Numerator = -(2 ^ 63) ∧ m.Denominator = 1 ∧
      (m.Numerator : ℚ) / (m.Denominator : ℚ) ≠ ((-(2 ^ 63) : Int) : ℚ) / (((-1 : Int)) : ℚ)) ∧
    (∃ m2 : Money, NewMoney 1 (-(2 ^ 63)) = some m2 ∧
      m2.Denominator = -(2 ^ 63) ∧ ¬ (0 < m2.Denominator)) := by
  constructor
  · have hval : ((-(2 ^ 63) : Int) : ℚ) / (((-1 : Int)) : ℚ) = ((2 ^ 63 : Int) : ℚ) := by
      push_cast
      norm_num
    have hwrapNum : int64wrap (2 ^ 63) = -(2 ^ 63) := by decide
    have hNum : Money.Numerator ((2 ^ 63 : Int) : ℚ) = -(2 ^ 63) := by
      rw [Money.Numerator, Rat.num_intCast]
      exact hwrapNum
    have hDen : Money.Denominator ((2 ^ 63 : Int) : ℚ) = 1 := by
      rw [Money.Denominator, Rat.den_intCast]
      decide
    refine ⟨((2 ^ 63 : Int) : ℚ), ?_, hNum, hDen, ?_⟩
    · rw [NewMoney, if_neg (by norm_num), hval]
    · rw [hNum, hDen, hval]
      push_cast
      norm_num
  · have hden : ((((1 : Int)) : ℚ) / ((-(2 ^ 63) : Int) : ℚ)).den = 2 ^ 63 := by
      push_cast
      norm_num
    have hwrapDen : int64wrap ((2 ^ 63 : ℕ) : Int) = -(2 ^ 63) := by decide
    have hDen2 : Money.Denominator ((((1 : Int)) : ℚ) / ((-(2 ^ 63) : Int) : ℚ)) = -(2 ^ 63) := by
      rw [Money.Denominator, hden]
      exact hwrapDen
    refine ⟨(((1 : Int)) : ℚ) / ((-(2 ^ 63) : Int) : ℚ), ?_, hDen2, ?_⟩
    · rw [NewMoney, if_neg (by norm_num)]
    · rw [hDen2]
      norm_num

/-- C9 (amended): for every numerator and non-zero denominator whose reduced
fraction fits in the int64 range (reduced numerator in [-2^63, 2^63) and
reduced denominator below 2^63), Money construction succeeds and
Numerator()/Denominator() expose the representation of n/d in lowest terms
with positive denominator, equal to n/d as a rational; outside that range
the int64 conversion wraps. -/
theorem C9_money_roundtrip_in_range (n d : Int) (h : d ≠ 0)
    (hnumLow : -(2 ^ 63) ≤ ((n : ℚ) / (d : ℚ)).num)
    (hnumHigh : ((n : ℚ) / (d : ℚ)).num < 2 ^ 63)
    (hdenHigh : ((((n : ℚ) / (d : ℚ)).den : Int)) < 2 ^ 63) :
    ∃ m : Money, NewMoney n d = some m ∧
      (m.Numerator : ℚ) / (m.Denominator : ℚ) = (n : ℚ) / (d : ℚ) ∧
      0 < m.Denominator ∧
      m.Numerator.natAbs.Coprime m.Denominator.natAbs := by
  have hNum : Money.Numerator ((n : ℚ) / (d : ℚ)) = ((n : ℚ) / (d : ℚ)).num := by
    unfold Money.Numerator
    exact int64wrap_eq_self _ hnumLow hnumHigh
  have hDen : Money.Denominator ((n : ℚ) / (d : ℚ)) = ((((n : ℚ) / (d : ℚ)).den : Int)) := by
    unfold Money.Denominator
    refine int64wrap_eq_self _ ?_ hdenHigh
    have hnn : (0 : Int) ≤ ((((n : ℚ) / (d : ℚ)).den : Int)) := by positivity
    linarith
  refine ⟨(n : ℚ) / (d : ℚ), ?_, ?_, ?_, ?_⟩
  · simp [NewMoney, h]
  · rw [hNum, hDen]
    exact Rat.num_div_den _
  · rw [hDen]
    exact_mod_cast ((n : ℚ) / (d : ℚ)).pos
  · rw [hNum, hDen]
    simpa using ((n : ℚ) / (d : ℚ)).reduced

/-- C9 witness: instantiated at `6/4`, whose reduced fraction 3/2 fits in
the int64 range. -/
theorem C9_witness :
    (4 : Int) ≠ 0 ∧
    -(2 ^ 63) ≤ ((((6 : Int)) : ℚ) / (((4 : Int)) : ℚ)).num ∧
    ((((6 : Int)) : ℚ) / (((4 : Int)) : ℚ)).num < 2 ^ 63 ∧
    (((((6 : Int)) : ℚ) / (((4 : Int)) : ℚ)).den : Int) < 2 ^ 63 ∧
    (∃ m : Money, NewMoney 6 4 = some m ∧
      (m.Numerator : ℚ) / (m.Denominator : ℚ) = ((6 : Int) : ℚ) / ((4 : Int) : ℚ) ∧
      0 < m.Denominator ∧
      m.Numerator.natAbs.Coprime m.Denominator.natAbs) :=
  ⟨by decide, by norm_num, by norm_num, by norm_num,
   C9_money_roundtrip_in_range 6 4 (by decide) (by norm_num) (by norm_num) (by norm_num)⟩

/-- A fraction inside the validated range and a proper window build
successfully through NewDiscountFromRat. -/
lemma NewDiscountFromRat_ok (f : ℚ) (s e : Int) (h0 : 0 ≤ 100 * f)
    (h100 : 100 * f ≤ 100) (hse : s < e) :
    NewDiscountFromRat f s e = Except.ok ⟨f, s, e⟩ := by
  have h1 : ¬ (100 * f < 0 ∨ 100 < 100 * f) := by
    push_neg
    exact ⟨h0, h100⟩
  simp [NewDiscountFromRat, h1, timeBefore, not_lt.mpr hse.le, ne_of_lt hse]
  exact ⟨by linarith, by linarith⟩

/-- C10: the orchestrators' discount reconstruction divides a parsed
percentage by 100 exactly when it exceeds 1 and keeps it unchanged otherwise;
a persisted value of exactly 1 is kept as the fraction 1 (100%), not 1%. -/
theorem C10_reconstruction (q : ℚ) (s e : Int) (hse : s < e) :
    (1 < q → reconstructExistingDiscount q s e = NewDiscountFromRat (q / 100) s e) ∧
    (q ≤ 1 → reconstructExistingDiscount q s e = NewDiscountFromRat q s e) ∧
    (0 ≤ q → q ≤ 100 → ∃ d, reconstructExistingDiscount q s e = Except.ok d ∧
        d.PercentageRat = reconstructDiscountFraction q) ∧
    (∃ d, reconstructExistingDiscount 1 s e = Except.ok d ∧
        d.PercentageRat = 1 ∧ d.PercentageRat ≠ 1 / 100) := by
  have hes : timeBefore e s = false := by
    simp [timeBefore, not_lt.mpr hse.le]
  have hne : ¬ (s = e) := fun hcontra => absurd hcontra (ne_of_lt hse)
  refine ⟨?_, ?_, ?_, ?_⟩
  · intro h1
    simp [reconstructExistingDiscount, reconstructDiscountFraction, if_pos h1]
  · intro h1
    simp [reconstructExistingDiscount, reconstructDiscountFraction, if_neg (not_lt.mpr h1)]
  · intro h0 h100
    have hf0 : 0 ≤ reconstructDiscountFraction q := by
      unfold reconstructDiscountFraction
      split_ifs <;> positivity
    have hf100 : 100 * reconstructDiscountFraction q ≤ 100 := by
      unfold reconstructDiscountFraction
      split_ifs with hgt
      · have hq : (100 : ℚ) * (q / 100) = q := by field_simp
        linarith
      · nlinarith [not_lt.mp hgt]
    exact ⟨⟨reconstructDiscountFraction q, s, e⟩,
      NewDiscountFromRat_ok (reconstructDiscountFraction q) s e (by positivity) hf100 hse, rfl⟩
  · have h1 : reconstructDiscountFraction 1 = 1 := by
      simp [reconstructDiscountFraction]
    refine ⟨⟨1, s, e⟩, ?_, rfl, by norm_num [Discount.PercentageRat]⟩
    unfold reconstructExistingDiscount
    rw [h1]
    exact NewDiscountFromRat_ok 1 s e (by norm_num) (by norm_num) hse

/-- C10 witness: instantiated at a stored value of one half on the window
[0, 1). -/
theorem C10_witness :
    (0 : Int) < 1 ∧
    ((1 < (1 : ℚ)/2 → reconstructExistingDiscount ((1 : ℚ)/2) 0 1 = NewDiscountFromRat (((1 : ℚ)/2) / 100) 0 1) ∧
     ((1 : ℚ)/2 ≤ 1 → reconstructExistingDiscount ((1 : ℚ)/2) 0 1 = NewDiscountFromRat ((1 : ℚ)/2) 0 1) ∧
     (0 ≤ (1 : ℚ)/2 → (1 : ℚ)/2 ≤ 100 → ∃ d, reconstructExistingDiscount ((1 : ℚ)/2) 0 1 = Except.ok d ∧
        d.PercentageRat = reconstructDiscountFraction ((1 : ℚ)/2)) ∧
     (∃ d, reconstructExistingDiscount 1 0 1 = Except.ok d ∧
        d.PercentageRat = 1 ∧ d.PercentageRat ≠ 1 / 100)) :=
  ⟨by decide, C10_reconstruction ((1 : ℚ)/2) 0 1 (by decide)⟩

/-- When the scaled value is exactly a natural number, the decimal rendering
is its digits split at the precision point (no rounding occurs). -/
lemma ratFloatString_of_scaled_nat (q : ℚ) (prec N : Nat)
    (h : q * (10 : ℚ) ^ prec = (N : ℚ)) :
    ratFloatString q prec =
      (if prec = 0 then natDigits (N / 10 ^ prec)
       else natDigits (N / 10 ^ prec) ++ (".") ++ padZeros (natDigits (N % 10 ^ prec)) prec) := by
  have hp : (0 : ℚ) < (10 : ℚ) ^ prec := by positivity
  have hq : q = (N : ℚ) / (10 : ℚ) ^ prec := by
    rw [eq_div_iff (ne_of_gt hp)]
    exact h
  have h0 : 0 ≤ q := by
    rw [hq]
    positivity
  rw [ratFloatString, if_neg (not_lt.mpr h0)]
  simp only [ratFloatStringNonneg]
  rw [h]
  have hfloor : ⌊(N : ℚ)⌋ = (N : Int) := Int.floor_natCast N
  rw [hfloor]
  have hfrac : ¬ ((1 : ℚ) ≤ 2 * ((N : ℚ) - ((N : Int) : ℚ))) := by
    push_cast
    norm_num
  rw [if_neg hfrac]
  have hdiv : (((N : Int)) / ((10 : Int) ^ prec)).toNat = N / 10 ^ prec := by
    have hcast : ((10 : Int) ^ prec) = ((10 ^ prec : Nat) : Int) := by push_cast; ring
    rw [hcast, ← Int.natCast_div]
    exact Int.toNat_natCast _
  have hmod : (((N : Int)) % ((10 : Int) ^ prec)).toNat = N % 10 ^ prec := by
    have hcast : ((10 : Int) ^ prec) = ((10 ^ prec : Nat) : Int) := by push_cast; ring
    rw [hcast, ← Int.natCast_mod]
    exact Int.toNat_natCast _
  rw [hdiv, hmod]

/-- A 20% discount built through NewDiscount stores the exact fraction 1/5. -/
lemma NewDiscount_twenty :
    NewDiscount 20 0 100 = Except.ok ⟨(1 : ℚ)/5, 0, 100⟩ := by
  have hfloor : (⌊(20 : ℚ) * 100⌋ : Int) = 2000 := by norm_num
  simp only [NewDiscount, timeBefore, hfloor]
  norm_num

/-- C2 counterexample: the percentage 0.125 (exactly representable as a
float64, with an exact float product 0.125·100 = 12.5) is truncated by the
`int64` conversion to the stored fraction 12/10000, so ApplyTo deviates from
`m − m·(p/100)` already at `m = 1`. -/
theorem C2_counterexample :
    ∃ d, NewDiscount ((1 : ℚ)/8) 0 100 = Except.ok d ∧
      d.ApplyTo 1 ≠ 1 - 1 * (((1 : ℚ)/8) / 100) := by
  refine ⟨⟨(3 : ℚ)/2500, 0, 100⟩, ?_, ?_⟩
  · have hfloor : (⌊((1 : ℚ)/8) * 100⌋ : Int) = 12 := by
      rw [show ((1 : ℚ)/8) * 100 = 25/2 by norm_num]
      norm_num
    simp only [NewDiscount, timeBefore, hfloor]
    norm_num
  · simp only [Discount.ApplyTo, Discount.CalculateDiscountAmount]
    norm_num

/-- C2 (amended): for every percentage p on the 0–100 scale such that 100·p
is an integer (in particular every whole-number percentage), a discount built
from p satisfies ApplyTo(m) = m − m·(p/100) exactly for every price; and the
two rendering examples hold: 19.99 with the 20% discount renders at 10
fractional digits to 15.9920000000, and 100.00 to 80.0000000000. -/
theorem C2_applyTo_exact (p : ℚ) (s e : Int) (d : Discount) (m : Money)
    (hint : (p * 100).den = 1)
    (hd : NewDiscount p s e = Except.ok d) :
    d.ApplyTo m = m - m * (p / 100) ∧
    (∃ d20, NewDiscount 20 0 100 = Except.ok d20 ∧
      ratFloatString (d20.ApplyTo ((1999 : ℚ) / 100)) 10 = ("15.9920000000") ∧
      ratFloatString (d20.ApplyTo (100 : ℚ)) 10 = ("80.0000000000")) := by
  constructor
  · have hpct : d.percentage = p / 100 := by
      have hnum : (((p * 100).num : ℚ)) = p * 100 := Rat.coe_int_num_of_den_eq_one hint
      have hfloor : (⌊p * 100⌋ : Int) = (p * 100).num := by
        conv_lhs => rw [← hnum]
        exact Int.floor_intCast _
      unfold NewDiscount at hd
      split_ifs at hd with h1 h2 h3
      · simp only [Except.ok.injEq] at hd
        rw [← hd]
        rw [hfloor, hnum]
        ring
    simp only [Discount.ApplyTo, Discount.CalculateDiscountAmount, hpct]
  · refine ⟨⟨(1 : ℚ)/5, 0, 100⟩, NewDiscount_twenty, ?_, ?_⟩
    · have happ : Discount.ApplyTo ⟨(1 : ℚ)/5, 0, 100⟩ ((1999 : ℚ) / 100) = (1999 : ℚ)/125 := by
        simp only [Discount.ApplyTo, Discount.CalculateDiscountAmount]
        norm_num
      rw [happ, ratFloatString_of_scaled_nat ((1999 : ℚ)/125) 10 159920000000 (by norm_num)]
      decide
    · have happ : Discount.ApplyTo ⟨(1 : ℚ)/5, 0, 100⟩ (100 : ℚ) = (80 : ℚ) := by
        simp only [Discount.ApplyTo, Discount.CalculateDiscountAmount]
        norm_num
      rw [happ, ratFloatString_of_scaled_nat (80 : ℚ) 10 800000000000 (by norm_num)]
      decide

/-- C2 witness: instantiated at the 20% discount and the price 50. -/
theorem C2_witness :
    ((20 : ℚ) * 100).den = 1 ∧
    NewDiscount 20 0 100 = Except.ok ⟨(1 : ℚ)/5, 0, 100⟩ ∧
    (Discount.ApplyTo ⟨(1 : ℚ)/5, 0, 100⟩ 50 = 50 - 50 * ((20 : ℚ) / 100) ∧
     (∃ d20, NewDiscount 20 0 100 = Except.ok d20 ∧
       ratFloatString (d20.ApplyTo ((1999 : ℚ) / 100)) 10 = ("15.9920000000") ∧
       ratFloatString (d20.ApplyTo (100 : ℚ)) 10 = ("80.0000000000"))) := by
  refine ⟨by norm_num, NewDiscount_twenty, ?_⟩
  exact C2_applyTo_exact 20 0 100 ⟨(1 : ℚ)/5, 0, 100⟩ 50 (by norm_num) NewDiscount_twenty

/-- C1 counterexample: UpdateDetails with a valid new name and an over-long
category returns the category validation error, yet the returned aggregate
has the new name applied and the name field marked dirty. -/
theorem C1_counterexample :
    (sampleDraft.UpdateDetails ("B") ("") longCategory 5).2 = some DomainErr.productCategoryTooLong ∧
    (sampleDraft.UpdateDetails ("B") ("") longCategory 5).1.name = ("B") ∧
    sampleDraft.name = ("A") ∧
    (sampleDraft.UpdateDetails ("B") ("") longCategory 5).1.changes.Dirty FieldName = true ∧
    sampleDraft.changes.Dirty FieldName = false := by
  decide

/-- Status and archival timestamp (and the price/discount frame) are
untouched by UpdateDetails in every branch. -/
lemma UpdateDetails_frame (p : Product) (n dsc c : String) (t : Int) :
    ((p.UpdateDetails n dsc c t).1.status = p.status) ∧
    ((p.UpdateDetails n dsc c t).1.archivedAt = p.archivedAt) ∧
    ((p.UpdateDetails n dsc c t).1.basePrice = p.basePrice) ∧
    ((p.UpdateDetails n dsc c t).1.discount = p.discount) ∧
    ((p.UpdateDetails n dsc c t).1.category = p.category ∨ (p.UpdateDetails n dsc c t).2 = none) := by
  unfold Product.UpdateDetails
  split_ifs <;> (try simp_all) <;> (try split_ifs) <;> (try simp_all)

/-- Status and archival timestamp are untouched by UpdatePrice. -/
lemma UpdatePrice_frame (p : Product) (np : Option Money) (t : Int) :
    ((p.UpdatePrice np t).1.status = p.status) ∧
    ((p.UpdatePrice np t).1.archivedAt = p.archivedAt) := by
  unfold Product.UpdatePrice
  by_cases h1 : p.status = ProductStatus.archived
  · simp [h1]
  · rw [if_neg h1]
    cases hv : validatePrice np with
    | some e => simp
    | none =>
      cases np with
      | none => simp
      | some q =>
        by_cases h2 : q ≠ p.basePrice <;> simp [h2]

/-- Status and archival timestamp are untouched by ApplyDiscount. -/
lemma ApplyDiscount_frame (p : Product) (d : Discount) (t : Int) :
    ((p.ApplyDiscount d t).1.status = p.status) ∧
    ((p.ApplyDiscount d t).1.archivedAt = p.archivedAt) := by
  unfold Product.ApplyDiscount
  split_ifs <;> simp_all

/-- Status and archival timestamp are untouched by RemoveDiscount. -/
lemma RemoveDiscount_frame (p : Product) (t : Int) :
    ((p.RemoveDiscount t).1.status = p.status) ∧
    ((p.RemoveDiscount t).1.archivedAt = p.archivedAt) := by
  unfold Product.RemoveDiscount
  by_cases h1 : p.status = ProductStatus.archived
  · simp [h1]
  · rw [if_neg h1]
    cases hd : p.discount <;> simp

/-- C1 (amended): UpdatePrice, Activate, Deactivate, Archive, ApplyDiscount
and RemoveDiscount leave the aggregate completely unchanged whenever they
return an error; UpdateDetails leaves category, price, discount, status,
archival stamp, updatedAt and the event list unchanged on error, but a
category validation error raised after a supplied name or description was
already applied can leave those two fields (and their dirty marks) modified. -/
theorem C1_error_frame :
    (∀ (p : Product) (np : Option Money) (t : Int),
        ((p.UpdatePrice np t).2).isSome = true → (p.UpdatePrice np t).1 = p) ∧
    (∀ (p : Product) (t : Int),
        ((p.Activate t).2).isSome = true → (p.Activate t).1 = p) ∧
    (∀ (p : Product) (t : Int),
        ((p.Deactivate t).2).isSome = true → (p.Deactivate t).1 = p) ∧
    (∀ (p : Product) (t : Int),
        ((p.Archive t).2).isSome = true → (p.Archive t).1 = p) ∧
    (∀ (p : Product) (d : Discount) (t : Int),
        ((p.ApplyDiscount d t).2).isSome = true → (p.ApplyDiscount d t).1 = p) ∧
    (∀ (p : Product) (t : Int),
        ((p.RemoveDiscount t).2).isSome = true → (p.RemoveDiscount t).1 = p) ∧
    (∀ (p : Product) (n dsc c : String) (t : Int),
        ((p.UpdateDetails n dsc c t).2).isSome = true →
          ((p.UpdateDetails n dsc c t).1.category = p.category ∧
           (p.UpdateDetails n dsc c t).1.basePrice = p.basePrice ∧
           (p.UpdateDetails n dsc c t).1.discount = p.discount ∧
           (p.UpdateDetails n dsc c t).1.status = p.status ∧
           (p.UpdateDetails n dsc c t).1.archivedAt = p.archivedAt ∧
           (p.UpdateDetails n dsc c t).1.updatedAt = p.updatedAt ∧
           (p.UpdateDetails n dsc c t).1.events = p.events)) := by
  refine ⟨?_, ?_, ?_, ?_, ?_, ?_, ?_⟩
  · intro p np t
    unfold Product.UpdatePrice
    by_cases h1 : p.status = ProductStatus.archived
    · simp [h1]
    · rw [if_neg h1]
      cases hv : validatePrice np with
      | some e => simp
      | none =>
        cases np with
        | none => simp
        | some q => by_cases h2 : q ≠ p.basePrice <;> simp [h2]
  · intro p t
    unfold Product.Activate
    by_cases h1 : p.status = ProductStatus.archived
    · simp [h1]
    · by_cases h2 : p.status = ProductStatus.active <;> simp [h1, h2]
  · intro p t
    unfold Product.Deactivate
    by_cases h1 : p.status = ProductStatus.archived
    · simp [h1]
    · by_cases h2 : p.status = ProductStatus.inactive <;> simp [h1, h2]
  · intro p t
    unfold Product.Archive
    by_cases h1 : p.status = ProductStatus.active
    · simp [h1]
    · by_cases h2 : p.status = ProductStatus.archived <;> simp [h1, h2]
  · intro p d t
    unfold Product.ApplyDiscount
    split_ifs <;> simp_all
  · intro p t
    unfold Product.RemoveDiscount
    by_cases h1 : p.status = ProductStatus.archived
    · simp [h1]
    · rw [if_neg h1]
      cases hd : p.discount <;> simp
  · intro p n dsc c t
    unfold Product.UpdateDetails
    split_ifs <;> (try simp_all) <;> (try split_ifs) <;> (try simp_all)

/-- C1 witness: the Activate conjunct instantiated on an archived product. -/
theorem C1_witness :
    ((sampleArchived.Activate 5).2).isSome = true ∧
    (sampleArchived.Activate 5).1 = sampleArchived :=
  ⟨rfl, C1_error_frame.2.1 sampleArchived 5 rfl⟩

/-- C5 counterexample: Deactivate succeeds on a draft product, performing the
transition draft→inactive, which is not among the five transitions listed by
the claim. -/
theorem C5_counterexample :
    (sampleDraft.Deactivate 5).2 = none ∧
    sampleDraft.status = ProductStatus.draft ∧
    (sampleDraft.Deactivate 5).1.status = ProductStatus.inactive ∧
    (ProductStatus.draft, ProductStatus.inactive) ∉ specTransitions := by
  refine ⟨rfl, rfl, rfl, ?_⟩
  decide

/-- C5 (amended): every business-method call either leaves the status
unchanged or performs one of draft→active, active→inactive, inactive→active,
draft→archived, inactive→archived, or draft→inactive (Deactivate also
accepts a draft product); in particular active→archived never occurs. -/
theorem C5_transitions (p q : Product) (h : BizStep p q) :
    (p.status = q.status ∨ (p.status, q.status) ∈ codeTransitions) ∧
    ¬ (p.status = ProductStatus.active ∧ q.status = ProductStatus.archived) := by
  have main : p.status = q.status ∨ (p.status, q.status) ∈ codeTransitions := by
    cases h with
    | updateDetails n dsc c t => exact Or.inl (UpdateDetails_frame p n dsc c t).1.symm
    | updatePrice np t => exact Or.inl (UpdatePrice_frame p np t).1.symm
    | applyDiscount d t => exact Or.inl (ApplyDiscount_frame p d t).1.symm
    | removeDiscount t => exact Or.inl (RemoveDiscount_frame p t).1.symm
    | activate t =>
      cases hs : p.status <;> simp [Product.Activate, hs] <;> decide
    | deactivate t =>
      cases hs : p.status <;> simp [Product.Deactivate, hs] <;> decide
    | archive t =>
      cases hs : p.status <;> simp [Product.Archive, hs] <;> decide
  refine ⟨main, ?_⟩
  rintro ⟨ha, hb⟩
  rcases main with heq | hmem
  · rw [ha, hb] at heq
    simp at heq
  · rw [ha, hb] at hmem
    exact absurd hmem (by decide)

/-- C5 witness: the step relation instantiated on activating a draft
product. -/
theorem C5_witness :
    BizStep sampleDraft ((sampleDraft.Activate 5).1) ∧
    ((sampleDraft.status = (sampleDraft.Activate 5).1.status ∨
      (sampleDraft.status, (sampleDraft.Activate 5).1.status) ∈ codeTransitions) ∧
     ¬ (sampleDraft.status = ProductStatus.active ∧
        (sampleDraft.Activate 5).1.status = ProductStatus.archived)) :=
  ⟨BizStep.activate sampleDraft 5,
   C5_transitions sampleDraft ((sampleDraft.Activate 5).1) (BizStep.activate sampleDraft 5)⟩

/-- C6 counterexample: on an archived product with no discount present,
RemoveDiscount returns the archived-state error instead of the claimed no-op
success. -/
theorem C6_counterexample :
    sampleArchived.discount = none ∧
    sampleArchived.status = ProductStatus.archived ∧
    (sampleArchived.RemoveDiscount 5).2 = some DomainErr.productArchived :=
  ⟨rfl, rfl, rfl⟩

/-- C6 (amended): RemoveDiscount on an archived product always fails with the
archived-state error (the archived check precedes the missing-discount check);
the silent no-op applies to non-archived products without a discount; on an
archived product every business method fails — all with the archived-state
error except ApplyDiscount, which fails with the not-active error. -/
theorem C6_removeDiscount_archived :
    (∀ (p : Product) (t : Int), p.status = ProductStatus.archived →
        p.RemoveDiscount t = (p, some DomainErr.productArchived)) ∧
    (∀ (p : Product) (t : Int), p.status ≠ ProductStatus.archived → p.discount = none →
        p.RemoveDiscount t = (p, none)) ∧
    (∀ (p : Product) (n dsc c : String) (t : Int), p.status = ProductStatus.archived →
        (p.UpdateDetails n dsc c t).2 = some DomainErr.productArchived) ∧
    (∀ (p : Product) (np : Option Money) (t : Int), p.status = ProductStatus.archived →
        (p.UpdatePrice np t).2 = some DomainErr.productArchived) ∧
    (∀ (p : Product) (t : Int), p.status = ProductStatus.archived →
        (p.Activate t).2 = some DomainErr.productArchived) ∧
    (∀ (p : Product) (t : Int), p.status = ProductStatus.archived →
        (p.Deactivate t).2 = some DomainErr.productArchived) ∧
    (∀ (p : Product) (t : Int), p.status = ProductStatus.archived →
        (p.Archive t).2 = some DomainErr.productArchived) ∧
    (∀ (p : Product) (d : Discount) (t : Int), p.status = ProductStatus.archived →
        (p.ApplyDiscount d t).2 = some DomainErr.productNotActive) := by
  refine ⟨?_, ?_, ?_, ?_, ?_, ?_, ?_, ?_⟩
  · intro p t h
    simp [Product.RemoveDiscount, h]
  · intro p t h1 h2
    simp [Product.RemoveDiscount, h1, h2]
  · intro p n dsc c t h
    simp [Product.UpdateDetails, h]
  · intro p np t h
    simp [Product.UpdatePrice, h]
  · intro p t h
    simp [Product.Activate, h]
  · intro p t h
    simp [Product.Deactivate, h]
  · intro p t h
    simp [Product.Archive, h]
  · intro p d t h
    simp [Product.ApplyDiscount, h]

/-- C6 witness: instantiated on the archived sample (error) and the draft
sample (silent no-op). -/
theorem C6_witness :
    sampleArchived.status = ProductStatus.archived ∧
    sampleArchived.RemoveDiscount 5 = (sampleArchived, some DomainErr.productArchived) ∧
    (sampleDraft.status ≠ ProductStatus.archived ∧ sampleDraft.discount = none ∧
     sampleDraft.RemoveDiscount 7 = (sampleDraft, none)) :=
  ⟨rfl, C6_removeDiscount_archived.1 sampleArchived 5 rfl,
   by decide, rfl, C6_removeDiscount_archived.2.1 sampleDraft 7 (by decide) rfl⟩

/-- C7 counterexample: ApplyDiscount on an archived product fails with the
not-active error, which is a different error value from the archived-state
error the claim requires. -/
theorem C7_counterexample :
    sampleArchived.status = ProductStatus.archived ∧
    (sampleArchived.ApplyDiscount sampleDiscount 5).2 = some DomainErr.productNotActive ∧
    DomainErr.productNotActive ≠ DomainErr.productArchived :=
  ⟨rfl, rfl, by decide⟩

/-- C7 (amended): on an archived product, UpdateDetails fails with the
archived-state error for any supplied fields, while ApplyDiscount fails with
the not-active error (its status guard fires before any archived check) for
any discount and time. -/
theorem C7_archived_errors :
    (∀ (p : Product) (n dsc c : String) (t : Int), p.status = ProductStatus.archived →
        (p.UpdateDetails n dsc c t).2 = some DomainErr.productArchived) ∧
    (∀ (p : Product) (d : Discount) (t : Int), p.status = ProductStatus.archived →
        (p.ApplyDiscount d t).2 = some DomainErr.productNotActive) := by
  constructor
  · intro p n dsc c t h
    simp [Product.UpdateDetails, h]
  · intro p d t h
    simp [Product.ApplyDiscount, h]

/-- C7 witness: both conjuncts instantiated on the archived sample. -/
theorem C7_witness :
    sampleArchived.status = ProductStatus.archived ∧
    (sampleArchived.UpdateDetails ("B") ("") ("c") 5).2 = some DomainErr.productArchived ∧
    (sampleArchived.ApplyDiscount sampleDiscount 5).2 = some DomainErr.productNotActive :=
  ⟨rfl, C7_archived_errors.1 sampleArchived ("B") ("") ("c") 5 rfl,
   C7_archived_errors.2 sampleArchived sampleDiscount 5 rfl⟩

/-- C8: every business method — succeeding or failing — preserves the
invariant that the archival timestamp is set exactly when the status is
archived. -/
theorem C8_archInv_preserved :
    (∀ (p : Product) (n dsc c : String) (t : Int),
        ArchInv p → ArchInv ((p.UpdateDetails n dsc c t).1)) ∧
    (∀ (p : Product) (np : Option Money) (t : Int),
        ArchInv p → ArchInv ((p.UpdatePrice np t).1)) ∧
    (∀ (p : Product) (t : Int), ArchInv p → ArchInv ((p.Activate t).1)) ∧
    (∀ (p : Product) (t : Int), ArchInv p → ArchInv ((p.Deactivate t).1)) ∧
    (∀ (p : Product) (t : Int), ArchInv p → ArchInv ((p.Archive t).1)) ∧
    (∀ (p : Product) (d : Discount) (t : Int),
        ArchInv p → ArchInv ((p.ApplyDiscount d t).1)) ∧
    (∀ (p : Product) (t : Int), ArchInv p → ArchInv ((p.RemoveDiscount t).1)) := by
  refine ⟨?_, ?_, ?_, ?_, ?_, ?_, ?_⟩
  · intro p n dsc c t hinv
    unfold ArchInv at hinv ⊢
    rw [(UpdateDetails_frame p n dsc c t).1, (UpdateDetails_frame p n dsc c t).2.1]
    exact hinv
  · intro p np t hinv
    unfold ArchInv at hinv ⊢
    rw [(UpdatePrice_frame p np t).1, (UpdatePrice_frame p np t).2]
    exact hinv
  · intro p t hinv
    unfold ArchInv at hinv ⊢
    unfold Product.Activate
    by_cases h1 : p.status = ProductStatus.archived
    · simpa [h1] using hinv
    · have hfalse : ¬ (p.archivedAt.isSome = true) := fun hb => h1 (hinv.mp hb)
      by_cases h2 : p.status = ProductStatus.active <;> simp [h1, h2, hfalse]
  · intro p t hinv
    unfold ArchInv at hinv ⊢
    unfold Product.Deactivate
    by_cases h1 : p.status = ProductStatus.archived
    · simpa [h1] using hinv
    · have hfalse : ¬ (p.archivedAt.isSome = true) := fun hb => h1 (hinv.mp hb)
      by_cases h2 : p.status = ProductStatus.inactive <;> simp [h1, h2, hfalse]
  · intro p t hinv
    unfold ArchInv at hinv ⊢
    unfold Product.Archive
    by_cases h1 : p.status = ProductStatus.active
    · simpa [h1] using hinv
    · by_cases h2 : p.status = ProductStatus.archived
      · simpa [h1, h2] using hinv
      · simp [h1, h2]
  · intro p d t hinv
    unfold ArchInv at hinv ⊢
    rw [(ApplyDiscount_frame p d t).1, (ApplyDiscount_frame p d t).2]
    exact hinv
  · intro p t hinv
    unfold ArchInv at hinv ⊢
    rw [(RemoveDiscount_frame p t).1, (RemoveDiscount_frame p t).2]
    exact hinv

/-- C8 witness: archiving the draft sample, which satisfies the invariant. -/
theorem C8_witness :
    ArchInv sampleDraft ∧ ArchInv ((sampleDraft.Archive 9).1) :=
  ⟨by unfold ArchInv; decide,
   C8_archInv_preserved.2.2.2.2.1 sampleDraft 9 (by unfold ArchInv; decide)⟩

/-- The seven field constants the domain ever marks dirty. -/
def knownFields : List String :=
  [FieldName, FieldDescription, FieldCategory, FieldBasePrice, FieldDiscount,
   FieldStatus, FieldArchivedAt]

/-- The table columns corresponding to one dirty field (the base price maps
to its two integer columns, the discount to its three columns). -/
def fieldCols (f : String) : List String :=
  if f = FieldName then [ColName]
  else if f = FieldDescription then [ColDescription]
  else if f = FieldCategory then [ColCategory]
  else if f = FieldBasePrice then [ColBasePriceNumerator, ColBasePriceDenominator]
  else if f = FieldDiscount then [ColDiscountPercent, ColDiscountStartDate, ColDiscountEndDate]
  else if f = FieldStatus then [ColStatus]
  else if f = FieldArchivedAt then [ColArchivedAt]
  else []

/-- Membership in a conditionally-included block. -/
lemma mem_if_nil (P : Prop) [Decidable P] (L : List String) (c : String) :
    (c ∈ (if P then L else [])) ↔ P ∧ c ∈ L := by
  split_ifs with h <;> simp [h]

/-- The column names of the dirty-field update entries, block by block. -/
lemma dirtyUpdates_cols (p : Product) :
    (dirtyUpdates p).map Prod.fst =
      (if p.changes.Dirty FieldName then [ColName] else []) ++
      (if p.changes.Dirty FieldDescription then [ColDescription] else []) ++
      (if p.changes.Dirty FieldCategory then [ColCategory] else []) ++
      (if p.changes.Dirty FieldBasePrice then
          [ColBasePriceNumerator, ColBasePriceDenominator] else []) ++
      (if p.changes.Dirty FieldDiscount then
          [ColDiscountPercent, ColDiscountStartDate, ColDiscountEndDate] else []) ++
      (if p.changes.Dirty FieldStatus then [ColStatus] else []) ++
      (if p.changes.Dirty FieldArchivedAt then [ColArchivedAt] else []) := by
  cases hdisc : p.discount <;>
    simp [dirtyUpdates, hdisc, List.map_append, apply_ite (List.map Prod.fst)]

/-- A column appears among the dirty-field update entries exactly when some
dirty field owns it. -/
lemma mem_dirty_cols (p : Product) (c : String) :
    c ∈ (dirtyUpdates p).map Prod.fst ↔ ∃ f ∈ p.changes.dirtyFields, c ∈ fieldCols f := by
  have hfc1 : fieldCols FieldName = [ColName] := by decide
  have hfc2 : fieldCols FieldDescription = [ColDescription] := by decide
  have hfc3 : fieldCols FieldCategory = [ColCategory] := by decide
  have hfc4 : fieldCols FieldBasePrice = [ColBasePriceNumerator, ColBasePriceDenominator] := by decide
  have hfc5 : fieldCols FieldDiscount =
      [ColDiscountPercent, ColDiscountStartDate, ColDiscountEndDate] := by decide
  have hfc6 : fieldCols FieldStatus = [ColStatus] := by decide
  have hfc7 : fieldCols FieldArchivedAt = [ColArchivedAt] := by decide
  rw [dirtyUpdates_cols]
  simp only [List.mem_append, mem_if_nil]
  constructor
  · rintro ((((((h | h) | h) | h) | h) | h) | h)
    · exact ⟨FieldName, (dirty_iff _ _).mp h.1, by rw [hfc1]; exact h.2⟩
    · exact ⟨FieldDescription, (dirty_iff _ _).mp h.1, by rw [hfc2]; exact h.2⟩
    · exact ⟨FieldCategory, (dirty_iff _ _).mp h.1, by rw [hfc3]; exact h.2⟩
    · exact ⟨FieldBasePrice, (dirty_iff _ _).mp h.1, by rw [hfc4]; exact h.2⟩
    · exact ⟨FieldDiscount, (dirty_iff _ _).mp h.1, by rw [hfc5]; exact h.2⟩
    · exact ⟨FieldStatus, (dirty_iff _ _).mp h.1, by rw [hfc6]; exact h.2⟩
    · exact ⟨FieldArchivedAt, (dirty_iff _ _).mp h.1, by rw [hfc7]; exact h.2⟩
  · rintro ⟨f, hf, hc⟩
    have hd := (dirty_iff p.changes f).mpr hf
    by_cases h1 : f = FieldName
    · subst h1
      rw [hfc1] at hc
      exact Or.inl (Or.inl (Or.inl (Or.inl (Or.inl (Or.inl ⟨hd, hc⟩)))))
    by_cases h2 : f = FieldDescription
    · subst h2
      rw [hfc2] at hc
      exact Or.inl (Or.inl (Or.inl (Or.inl (Or.inl (Or.inr ⟨hd, hc⟩)))))
    by_cases h3 : f = FieldCategory
    · subst h3
      rw [hfc3] at hc
      exact Or.inl (Or.inl (Or.inl (Or.inl (Or.inr ⟨hd, hc⟩))))
    by_cases h4 : f = FieldBasePrice
    · subst h4
      rw [hfc4] at hc
      exact Or.inl (Or.inl (Or.inl (Or.inr ⟨hd, hc⟩)))
    by_cases h5 : f = FieldDiscount
    · subst h5
      rw [hfc5] at hc
      exact Or.inl (Or.inl (Or.inr ⟨hd, hc⟩))
    by_cases h6 : f = FieldStatus
    · subst h6
      rw [hfc6] at hc
      exact Or.inl (Or.inr ⟨hd, hc⟩)
    by_cases h7 : f = FieldArchivedAt
    · subst h7
      rw [hfc7] at hc
      exact Or.inr ⟨hd, hc⟩
    · have hempty : fieldCols f = [] := by
        unfold fieldCols
        rw [if_neg h1, if_neg h2, if_neg h3, if_neg h4, if_neg h5, if_neg h6, if_neg h7]
      rw [hempty] at hc
      simp at hc

/-- The draft sample after updating two of its three mutable detail fields
(name and category). -/
def sampleTwoFields : Product :=
  (sampleDraft.UpdateDetails ("NewName") ("") ("toys") 7).1

/-- C4: for an aggregate with at least one dirty field (all tracked fields
being ones the domain marks), the update mutation's value map holds exactly
the columns of the dirty fields plus updated-at, keyed by the product id (the
primary-key column itself addresses the row); in particular after updating
two of the three mutable detail fields the update columns are exactly those
two plus updated-at. -/
theorem C4_update_mutation_minimal (p : Product)
    (hchg : p.changes.HasChanges = true)
    (hknown : ∀ f ∈ p.changes.dirtyFields, f ∈ knownFields) :
    ∃ u : SpannerUpdate, ProductRepo.UpdateMut p = some u ∧ u.productID = p.id ∧
      (∀ c : String, c ∈ u.updates.map Prod.fst ↔
        ((∃ f ∈ p.changes.dirtyFields, c ∈ fieldCols f) ∨ c = ColUpdatedAt)) ∧
      ((ProductRepo.UpdateMut sampleTwoFields).map (fun w => w.updates.map Prod.fst) =
        some ([ColName, ColCategory, ColUpdatedAt])) := by
  have hne : dirtyUpdates p ≠ [] := by
    have hfields : p.changes.dirtyFields ≠ [] := by
      have := hchg
      unfold ChangeTracker.HasChanges at this
      simpa using this
    obtain ⟨f, hf⟩ := List.exists_mem_of_ne_nil _ hfields
    have hkf := hknown f hf
    have hcols : ∃ c, c ∈ fieldCols f := by
      simp only [knownFields, List.mem_cons] at hkf
      rcases hkf with h | h | h | h | h | h | h | h
      · exact ⟨ColName, by rw [h]; decide⟩
      · exact ⟨ColDescription, by rw [h]; decide⟩
      · exact ⟨ColCategory, by rw [h]; decide⟩
      · exact ⟨ColBasePriceNumerator, by rw [h]; decide⟩
      · exact ⟨ColDiscountPercent, by rw [h]; decide⟩
      · exact ⟨ColStatus, by rw [h]; decide⟩
      · exact ⟨ColArchivedAt, by rw [h]; decide⟩
      · simp at h
    obtain ⟨c, hc⟩ := hcols
    have hmem : c ∈ (dirtyUpdates p).map Prod.fst := (mem_dirty_cols p c).mpr ⟨f, hf, hc⟩
    intro hcontra
    rw [hcontra] at hmem
    simp at hmem
  refine ⟨⟨p.id, dirtyUpdates p ++ [(ColUpdatedAt, ColValue.time p.updatedAt)]⟩, ?_, rfl, ?_, ?_⟩
  · unfold ProductRepo.UpdateMut
    rw [if_neg (by simp [hchg]), if_neg hne]
  · intro c
    simp only [List.map_append, List.mem_append, mem_dirty_cols, List.map_cons, List.map_nil,
      List.mem_singleton]
  · decide

/-- C4 witness: instantiated on the two-field update sample. -/
theorem C4_witness :
    sampleTwoFields.changes.HasChanges = true ∧
    (∀ f ∈ sampleTwoFields.changes.dirtyFields, f ∈ knownFields) ∧
    (∃ u : SpannerUpdate, ProductRepo.UpdateMut sampleTwoFields = some u ∧
      u.productID = sampleTwoFields.id ∧
      (∀ c : String, c ∈ u.updates.map Prod.fst ↔
        ((∃ f ∈ sampleTwoFields.changes.dirtyFields, c ∈ fieldCols f) ∨ c = ColUpdatedAt)) ∧
      ((ProductRepo.UpdateMut sampleTwoFields).map (fun w => w.updates.map Prod.fst) =
        some ([ColName, ColCategory, ColUpdatedAt]))) :=
  ⟨by decide, by decide,
   C4_update_mutation_minimal sampleTwoFields (by decide) (by decide)⟩
